import Mathlib

/-!
Shallow embedding of `src/redBlackTree.py` (class `RedBlackTree` with a
mutable `Node` graph and a single sentinel object `self.nil`).

The Python objects live in a heap; we model the heap as an arena: an array
of node records indexed by `Nat`, with index `0` permanently holding the
sentinel object created in `RedBlackTree.__init__`.  A Python reference to
a node is an index; a reference to `self.nil` is the index `0`.  Every
attribute read and write of the Python code becomes a read or write of the
record at the given index, performed in exactly the source order, so that
the scratch writes the code makes to the sentinel's fields (its `parent`,
and its `color` inside `fix_delete`) are reproduced faithfully.

`while` loops and the recursive helpers become fuel-indexed recursions;
every public entry point passes fuel `t.nodes.size + 1`, which dominates
the depth of any acyclic pointer structure stored in the arena.
-/

/-- A Python `Node` object: `key`, `parent`, `left`, `right`, `color`
(1 = RED, 0 = BLACK, as in the source). The pointer fields hold arena
indices; index 0 is the sentinel. -/
structure Node where
  key : Int
  parent : Nat
  left : Nat
  right : Nat
  color : Nat
deriving Repr, DecidableEq

/-- The record stored for the sentinel by `RedBlackTree.__init__`:
`Node(0)` re-colored BLACK with `left = right = parent = self`. -/
def nilNode : Node := ⟨0, 0, 0, 0, 0⟩

/-- The tree state: the arena of node records plus the `self.root` index.
`self.nil` is always index 0. -/
structure RedBlackTree where
  nodes : Array Node
  root : Nat
deriving Repr, DecidableEq

namespace RedBlackTree

/-- `RedBlackTree.__init__`: fresh tree, arena holding just the sentinel,
`self.root = self.nil`. -/
def init0 : RedBlackTree := ⟨#[nilNode], 0⟩

/-- Dereference an arena index (attribute reads `i.key`, `i.left`, ...). -/
def getN (t : RedBlackTree) (i : Nat) : Node := t.nodes.getD i nilNode

def keyOf (t : RedBlackTree) (i : Nat) : Int := (t.getN i).key
def parentOf (t : RedBlackTree) (i : Nat) : Nat := (t.getN i).parent
def leftOf (t : RedBlackTree) (i : Nat) : Nat := (t.getN i).left
def rightOf (t : RedBlackTree) (i : Nat) : Nat := (t.getN i).right
def colorOf (t : RedBlackTree) (i : Nat) : Nat := (t.getN i).color

/-- Attribute write `i.f = v` for a single field. -/
def setNode (t : RedBlackTree) (i : Nat) (f : Node → Node) : RedBlackTree :=
  { t with nodes := t.nodes.modify i f }

def setParent (t : RedBlackTree) (i v : Nat) : RedBlackTree :=
  t.setNode i fun n => { n with parent := v }
def setLeft (t : RedBlackTree) (i v : Nat) : RedBlackTree :=
  t.setNode i fun n => { n with left := v }
def setRight (t : RedBlackTree) (i v : Nat) : RedBlackTree :=
  t.setNode i fun n => { n with right := v }
def setColor (t : RedBlackTree) (i v : Nat) : RedBlackTree :=
  t.setNode i fun n => { n with color := v }
def setRoot (t : RedBlackTree) (r : Nat) : RedBlackTree := { t with root := r }

/-- `minimum`: `while node.left != self.nil: node = node.left`. -/
def minimumF (t : RedBlackTree) : Nat → Nat → Nat
  | 0, node => node
  | fuel + 1, node =>
    if t.leftOf node ≠ 0 then t.minimumF fuel (t.leftOf node) else node

def minimum (t : RedBlackTree) (node : Nat) : Nat :=
  t.minimumF (t.nodes.size + 1) node

/-- `maximum`: `while node.right != self.nil: node = node.right`. -/
def maximumF (t : RedBlackTree) : Nat → Nat → Nat
  | 0, node => node
  | fuel + 1, node =>
    if t.rightOf node ≠ 0 then t.maximumF fuel (t.rightOf node) else node

def maximum (t : RedBlackTree) (node : Nat) : Nat :=
  t.maximumF (t.nodes.size + 1) node

/-- The climbing loop of `successor`:
`while y != self.nil and x == y.right: x = y; y = y.parent`. -/
def succUpF (t : RedBlackTree) : Nat → Nat → Nat → Nat
  | 0, _, y => y
  | fuel + 1, x, y =>
    if y ≠ 0 ∧ x = t.rightOf y then t.succUpF fuel y (t.parentOf y) else y

/-- `successor(x)`. -/
def successor (t : RedBlackTree) (x : Nat) : Nat :=
  if t.rightOf x ≠ 0 then t.minimum (t.rightOf x)
  else t.succUpF (t.nodes.size + 1) x (t.parentOf x)

/-- The climbing loop of `predecessor`. -/
def predUpF (t : RedBlackTree) : Nat → Nat → Nat → Nat
  | 0, _, y => y
  | fuel + 1, x, y =>
    if y ≠ 0 ∧ x = t.leftOf y then t.predUpF fuel y (t.parentOf y) else y

/-- `predecessor(x)`. -/
def predecessor (t : RedBlackTree) (x : Nat) : Nat :=
  if t.leftOf x ≠ 0 then t.maximum (t.leftOf x)
  else t.predUpF (t.nodes.size + 1) x (t.parentOf x)

/-- `left_rotate(x)`, statement by statement; every read is performed on
the state produced by the preceding writes, exactly as in Python. -/
def left_rotate (t : RedBlackTree) (x : Nat) : RedBlackTree :=
  let y := t.rightOf x
  let t := t.setRight x (t.leftOf y)
  let t := if t.leftOf y ≠ 0 then t.setParent (t.leftOf y) x else t
  let t := t.setParent y (t.parentOf x)
  let t :=
    if t.parentOf x = 0 then t.setRoot y
    else if x = t.leftOf (t.parentOf x) then t.setLeft (t.parentOf x) y
    else t.setRight (t.parentOf x) y
  let t := t.setLeft y x
  t.setParent x y

/-- `right_rotate(y)`. -/
def right_rotate (t : RedBlackTree) (y : Nat) : RedBlackTree :=
  let x := t.leftOf y
  let t := t.setLeft y (t.rightOf x)
  let t := if t.rightOf x ≠ 0 then t.setParent (t.rightOf x) y else t
  let t := t.setParent x (t.parentOf y)
  let t :=
    if t.parentOf y = 0 then t.setRoot x
    else if y = t.leftOf (t.parentOf y) then t.setLeft (t.parentOf y) x
    else t.setRight (t.parentOf y) x
  let t := t.setRight x y
  t.setParent y x

/-- `insert_fixup(z)`: the `while z.parent.color == 1` loop followed by the
final `self.root.color = 0`. -/
def insert_fixupF (t : RedBlackTree) : Nat → Nat → RedBlackTree
  | 0, _ => t
  | fuel + 1, z =>
    if t.colorOf (t.parentOf z) = 1 then
      if t.parentOf z = t.leftOf (t.parentOf (t.parentOf z)) then
        let y := t.rightOf (t.parentOf (t.parentOf z))
        if t.colorOf y = 1 then
          let t := t.setColor (t.parentOf z) 0
          let t := t.setColor y 0
          let t := t.setColor (t.parentOf (t.parentOf z)) 1
          t.insert_fixupF fuel (t.parentOf (t.parentOf z))
        else
          let p : RedBlackTree × Nat :=
            if z = t.rightOf (t.parentOf z) then
              (t.left_rotate (t.parentOf z), t.parentOf z)
            else (t, z)
          let t := p.1
          let z := p.2
          let t := t.setColor (t.parentOf z) 0
          let t := t.setColor (t.parentOf (t.parentOf z)) 1
          let t := t.right_rotate (t.parentOf (t.parentOf z))
          t.insert_fixupF fuel z
      else
        let y := t.leftOf (t.parentOf (t.parentOf z))
        if t.colorOf y = 1 then
          let t := t.setColor y 0
          let t := t.setColor (t.parentOf z) 0
          let t := t.setColor (t.parentOf (t.parentOf z)) 1
          t.insert_fixupF fuel (t.parentOf (t.parentOf z))
        else
          let p : RedBlackTree × Nat :=
            if z = t.leftOf (t.parentOf z) then
              (t.right_rotate (t.parentOf z), t.parentOf z)
            else (t, z)
          let t := p.1
          let z := p.2
          let t := t.setColor (t.parentOf z) 0
          let t := t.setColor (t.parentOf (t.parentOf z)) 1
          let t := t.left_rotate (t.parentOf (t.parentOf z))
          t.insert_fixupF fuel z
    else
      t.setColor t.root 0

def insert_fixup (t : RedBlackTree) (z : Nat) : RedBlackTree :=
  t.insert_fixupF (t.nodes.size + 1) z

/-- Result of the descent loop inside `insert`: the key was found already
present (`dup`), or the parent position `y` for the new leaf was reached
(`pos y`), or the fuel ran out (`out`, unreachable on acyclic arenas). -/
inductive InsPos where
  | dup : InsPos
  | pos : Nat → InsPos
  | out : InsPos
deriving Repr, DecidableEq

/-- The descent loop of `insert`:
`while x != self.nil:` with the three-way key comparison. -/
def insertLoopF (t : RedBlackTree) (k : Int) : Nat → Nat → Nat → InsPos
  | 0, _, _ => .out
  | fuel + 1, y, x =>
    if x ≠ 0 then
      if k < t.keyOf x then t.insertLoopF k fuel x (t.leftOf x)
      else if k > t.keyOf x then t.insertLoopF k fuel x (t.rightOf x)
      else .dup
    else .pos y

/-- `insert(key)`.  The returned Bool is `true` exactly when the source
prints "key ... already exists in the tree" and returns with the tree
unchanged (the duplicate-key signal).  The freshly created `Node(key)` is
added to the arena at the moment it becomes reachable (on the duplicate
path the Python object is unreachable garbage and the tree state is
unchanged, which the arena mirrors by not retaining it). -/
def insert (t : RedBlackTree) (k : Int) : RedBlackTree × Bool :=
  match t.insertLoopF k (t.nodes.size + 1) 0 t.root with
  | .dup => (t, true)
  | .out => (t, false)
  | .pos y =>
    if y = 0 then
      -- empty tree: z becomes the root and is recolored BLACK
      let zi := t.nodes.size
      (⟨t.nodes.push ⟨k, 0, 0, 0, 0⟩, zi⟩, false)
    else
      let zi := t.nodes.size
      let t : RedBlackTree := ⟨t.nodes.push ⟨k, y, 0, 0, 1⟩, t.root⟩
      let t := if k < t.keyOf y then t.setLeft y zi else t.setRight y zi
      (t.insert_fixup zi, false)

/-- `rb_transplant(u, v)`. -/
def rb_transplant (t : RedBlackTree) (u v : Nat) : RedBlackTree :=
  let t :=
    if t.parentOf u = 0 then t.setRoot v
    else if u = t.leftOf (t.parentOf u) then t.setLeft (t.parentOf u) v
    else t.setRight (t.parentOf u) v
  t.setParent v (t.parentOf u)

/-- `find_helper(key, node)` (recursive in the source). -/
def find_helperF (t : RedBlackTree) (k : Int) : Nat → Nat → Nat
  | 0, node => node
  | fuel + 1, node =>
    if node = 0 ∨ t.keyOf node = k then node
    else if k < t.keyOf node then t.find_helperF k fuel (t.leftOf node)
    else t.find_helperF k fuel (t.rightOf node)

/-- `find(key)`. -/
def find (t : RedBlackTree) (k : Int) : Nat :=
  if t.root = 0 then 0 else t.find_helperF k (t.nodes.size + 1) t.root

/-- `fix_delete(x)`: the loop `while x != self.nil and x.color == 0`
followed by the final `x.color = 0`. -/
def fix_deleteF (t : RedBlackTree) : Nat → Nat → RedBlackTree
  | 0, _ => t
  | fuel + 1, x =>
    if x ≠ 0 ∧ t.colorOf x = 0 then
      if x = t.leftOf (t.parentOf x) then
        let w := t.rightOf (t.parentOf x)
        let p : RedBlackTree × Nat :=
          if t.colorOf w = 1 then
            let t := t.setColor w 0
            let t := t.setColor (t.parentOf x) 1
            let t := t.left_rotate (t.parentOf x)
            (t, t.rightOf (t.parentOf x))
          else (t, w)
        let t := p.1
        let w := p.2
        if t.colorOf (t.leftOf w) = 0 ∧ t.colorOf (t.rightOf w) = 0 then
          let t := t.setColor w 1
          t.fix_deleteF fuel (t.parentOf x)
        else
          let q : RedBlackTree × Nat :=
            if t.colorOf (t.rightOf w) = 0 then
              let t := t.setColor (t.leftOf w) 0
              let t := t.setColor w 1
              let t := t.right_rotate w
              (t, t.rightOf (t.parentOf x))
            else (t, w)
          let t := q.1
          let w := q.2
          let t := t.setColor w (t.colorOf (t.parentOf x))
          let t := t.setColor (t.parentOf x) 0
          let t := t.setColor (t.rightOf w) 0
          let t := t.left_rotate (t.parentOf x)
          t.fix_deleteF fuel t.root
      else
        let w := t.leftOf (t.parentOf x)
        let p : RedBlackTree × Nat :=
          if t.colorOf w = 1 then
            let t := t.setColor w 0
            let t := t.setColor (t.parentOf x) 1
            let t := t.right_rotate (t.parentOf x)
            (t, t.leftOf (t.parentOf x))
          else (t, w)
        let t := p.1
        let w := p.2
        if t.colorOf (t.leftOf w) = 0 ∧ t.colorOf (t.rightOf w) = 0 then
          let t := t.setColor w 1
          t.fix_deleteF fuel (t.parentOf x)
        else
          let q : RedBlackTree × Nat :=
            if t.colorOf (t.leftOf w) = 0 then
              let t := t.setColor (t.rightOf w) 0
              let t := t.setColor w 1
              let t := t.left_rotate w
              (t, t.leftOf (t.parentOf x))
            else (t, w)
          let t := q.1
          let w := q.2
          let t := t.setColor w (t.colorOf (t.parentOf x))
          let t := t.setColor (t.parentOf x) 0
          let t := t.setColor (t.leftOf w) 0
          let t := t.right_rotate (t.parentOf x)
          t.fix_deleteF fuel t.root
    else
      t.setColor x 0

def fix_delete (t : RedBlackTree) (x : Nat) : RedBlackTree :=
  t.fix_deleteF (t.nodes.size + 1) x

/-- `delete_node_helper(z)`. -/
def delete_node_helper (t : RedBlackTree) (z : Nat) : RedBlackTree :=
  let y_original_color := t.colorOf z
  if t.leftOf z = 0 then
    let x := t.rightOf z
    let t := t.rb_transplant z (t.rightOf z)
    if y_original_color = 0 then t.fix_delete x else t
  else if t.rightOf z = 0 then
    let x := t.leftOf z
    let t := t.rb_transplant z (t.leftOf z)
    if y_original_color = 0 then t.fix_delete x else t
  else
    let y := t.minimum (t.rightOf z)
    let y_original_color := t.colorOf y
    let x := t.rightOf y
    let t :=
      if t.parentOf y = z then t.setParent x y
      else
        let t := t.rb_transplant y (t.rightOf y)
        let t := t.setRight y (t.rightOf z)
        t.setParent (t.rightOf y) y
    let t := t.rb_transplant z y
    let t := t.setLeft y (t.leftOf z)
    let t := t.setParent (t.leftOf y) y
    let t := t.setColor y (t.colorOf z)
    if y_original_color = 0 then t.fix_delete x else t

/-- `delete_node(key)`.  The returned Bool is `true` exactly when the
source prints "Key is not in the tree" and returns with the tree
unchanged (the missing-key signal). -/
def delete_node (t : RedBlackTree) (k : Int) : RedBlackTree × Bool :=
  let z := t.find k
  if z = 0 then (t, true) else (t.delete_node_helper z, false)

/-- `height(node)` (recursive in the source; `node is self.nil` is the
identity test against the sentinel, i.e. index 0). -/
def heightF (t : RedBlackTree) : Nat → Nat → Nat
  | 0, _ => 0
  | fuel + 1, node =>
    if node = 0 then 0
    else max (t.heightF fuel (t.leftOf node)) (t.heightF fuel (t.rightOf node)) + 1

def height (t : RedBlackTree) (node : Nat) : Nat :=
  t.heightF (t.nodes.size + 1) node

end RedBlackTree

/-- A public operation applied to the tree, as in the driver code. -/
inductive Op where
  | ins : Int → Op
  | del : Int → Op
deriving Repr, DecidableEq

/-- Apply one operation (discarding the printed signal). -/
def applyOp (t : RedBlackTree) : Op → RedBlackTree
  | .ins k => (t.insert k).1
  | .del k => (t.delete_node k).1

/-- Run a sequence of operations from a freshly constructed tree. -/
def runOps (ops : List Op) : RedBlackTree :=
  ops.foldl applyOp RedBlackTree.init0

/-- Value snapshot of the pointer structure reachable from an index:
key, color, and child snapshots. -/
inductive STree where
  | leaf : STree
  | node : Int → Nat → STree → STree → STree
deriving Repr, DecidableEq

def snapF (t : RedBlackTree) : Nat → Nat → STree
  | 0, _ => .leaf
  | fuel + 1, i =>
    if i = 0 then .leaf
    else .node (t.keyOf i) (t.colorOf i)
      (snapF t fuel (t.leftOf i)) (snapF t fuel (t.rightOf i))

def snapshot (t : RedBlackTree) : STree :=
  snapF t (t.nodes.size + 1) t.root

def goldenOps : List Op :=
  [.ins 8, .ins 18, .ins 5, .ins 15, .ins 17, .ins 25, .ins 40, .ins 80]

namespace RedBlackTree

/-- Black-height of the structure reachable from `i`: `some n` when every
path from `i` to a sentinel leaf passes through the same number `n` of
BLACK nodes (the node `i` itself included when BLACK), `none` when two
paths disagree (or the fuel runs out). -/
def bhF (t : RedBlackTree) : Nat → Nat → Option Nat
  | 0, _ => none
  | fuel + 1, i =>
    if i = 0 then some 0
    else
      match t.bhF fuel (t.leftOf i), t.bhF fuel (t.rightOf i) with
      | some a, some b =>
        if a = b then some (a + (if t.colorOf i = 0 then 1 else 0)) else none
      | _, _ => none

/-- Every node reachable from `i` has color 0 or 1. -/
def colorsOkF (t : RedBlackTree) : Nat → Nat → Bool
  | 0, _ => false
  | fuel + 1, i =>
    if i = 0 then true
    else (t.colorOf i = 0 || t.colorOf i = 1)
      && t.colorsOkF fuel (t.leftOf i) && t.colorsOkF fuel (t.rightOf i)

/-- No RED node reachable from `i` has a RED child (sentinel children
counted: the sentinel's color is read like any node's). -/
def noRedRedF (t : RedBlackTree) : Nat → Nat → Bool
  | 0, _ => false
  | fuel + 1, i =>
    if i = 0 then true
    else (t.colorOf i = 1 →
        (t.colorOf (t.leftOf i) = 0 ∧ t.colorOf (t.rightOf i) = 0))
      && t.noRedRedF fuel (t.leftOf i) && t.noRedRedF fuel (t.rightOf i)

/-- BST ordering of the structure reachable from `i` within the open
interval `(lo, hi)`. -/
def bstF (t : RedBlackTree) : Nat → Nat → Option Int → Option Int → Bool
  | 0, _, _, _ => false
  | fuel + 1, i, lo, hi =>
    if i = 0 then true
    else (match lo with | none => true | some a => a < t.keyOf i)
      && (match hi with | none => true | some b => t.keyOf i < b)
      && t.bstF fuel (t.leftOf i) lo (some (t.keyOf i))
      && t.bstF fuel (t.rightOf i) (some (t.keyOf i)) hi

/-- The five red-black invariants of the specification, §3: every node RED
or BLACK; the sentinel and the root's parent BLACK; no RED node with a RED
child; a well-defined black-height on every path; BST ordering. -/
def checkRB (t : RedBlackTree) : Bool :=
  t.colorsOkF (t.nodes.size + 1) t.root
    && t.colorOf 0 = 0
    && t.colorOf (t.parentOf t.root) = 0
    && t.noRedRedF (t.nodes.size + 1) t.root
    && (t.bhF (t.nodes.size + 1) t.root).isSome
    && t.bstF (t.nodes.size + 1) t.root none none

/-- In-order traversal of the keys reachable from the root. -/
def inorderF (t : RedBlackTree) : Nat → Nat → List Int
  | 0, _ => []
  | fuel + 1, i =>
    if i = 0 then []
    else t.inorderF fuel (t.leftOf i) ++ t.keyOf i :: t.inorderF fuel (t.rightOf i)

def inorder (t : RedBlackTree) : List Int :=
  t.inorderF (t.nodes.size + 1) t.root

end RedBlackTree

/-- Reference model of the present-key set, kept as a sorted list:
`insert` adds the key if absent, `delete` removes it if present ("inserted
and not subsequently deleted"). -/
def refInsert : List Int → Int → List Int
  | [], k => [k]
  | a :: s, k =>
    if k < a then k :: a :: s else if k = a then a :: s else a :: refInsert s k

def refApply (s : List Int) : Op → List Int
  | .ins k => refInsert s k
  | .del k => s.erase k

def refRun (ops : List Op) : List Int := ops.foldl refApply []

namespace RedBlackTree

/-- Instrumented copy of the `fix_delete` loop: identical state evolution,
additionally returning, for every iteration whose body executes (that is,
whose loop test `x != self.nil and x.color == 0` succeeds), the pair of
the loop variable `x` and the tree root at that moment. -/
def fix_deleteTraceF (t : RedBlackTree) :
    Nat → Nat → RedBlackTree × List (Nat × Nat)
  | 0, _ => (t, [])
  | fuel + 1, x =>
    if x ≠ 0 ∧ t.colorOf x = 0 then
      let here := (x, t.root)
      let r :=
        if x = t.leftOf (t.parentOf x) then
          let w := t.rightOf (t.parentOf x)
          let p : RedBlackTree × Nat :=
            if t.colorOf w = 1 then
              let t := t.setColor w 0
              let t := t.setColor (t.parentOf x) 1
              let t := t.left_rotate (t.parentOf x)
              (t, t.rightOf (t.parentOf x))
            else (t, w)
          let t := p.1
          let w := p.2
          if t.colorOf (t.leftOf w) = 0 ∧ t.colorOf (t.rightOf w) = 0 then
            let t := t.setColor w 1
            t.fix_deleteTraceF fuel (t.parentOf x)
          else
            let q : RedBlackTree × Nat :=
              if t.colorOf (t.rightOf w) = 0 then
                let t := t.setColor (t.leftOf w) 0
                let t := t.setColor w 1
                let t := t.right_rotate w
                (t, t.rightOf (t.parentOf x))
              else (t, w)
            let t := q.1
            let w := q.2
            let t := t.setColor w (t.colorOf (t.parentOf x))
            let t := t.setColor (t.parentOf x) 0
            let t := t.setColor (t.rightOf w) 0
            let t := t.left_rotate (t.parentOf x)
            t.fix_deleteTraceF fuel t.root
        else
          let w := t.leftOf (t.parentOf x)
          let p : RedBlackTree × Nat :=
            if t.colorOf w = 1 then
              let t := t.setColor w 0
              let t := t.setColor (t.parentOf x) 1
              let t := t.right_rotate (t.parentOf x)
              (t, t.leftOf (t.parentOf x))
            else (t, w)
          let t := p.1
          let w := p.2
          if t.colorOf (t.leftOf w) = 0 ∧ t.colorOf (t.rightOf w) = 0 then
            let t := t.setColor w 1
            t.fix_deleteTraceF fuel (t.parentOf x)
          else
            let q : RedBlackTree × Nat :=
              if t.colorOf (t.leftOf w) = 0 then
                let t := t.setColor (t.rightOf w) 0
                let t := t.setColor w 1
                let t := t.left_rotate w
                (t, t.leftOf (t.parentOf x))
              else (t, w)
            let t := q.1
            let w := q.2
            let t := t.setColor w (t.colorOf (t.parentOf x))
            let t := t.setColor (t.parentOf x) 0
            let t := t.setColor (t.leftOf w) 0
            let t := t.right_rotate (t.parentOf x)
            t.fix_deleteTraceF fuel t.root
      (r.1, here :: r.2)
    else
      (t.setColor x 0, [])

/-- `delete_node_helper` with the instrumented fixup. -/
def delete_node_helperTrace (t : RedBlackTree) (z : Nat) :
    RedBlackTree × List (Nat × Nat) :=
  let y_original_color := t.colorOf z
  if t.leftOf z = 0 then
    let x := t.rightOf z
    let t := t.rb_transplant z (t.rightOf z)
    if y_original_color = 0 then t.fix_deleteTraceF (t.nodes.size + 1) x
    else (t, [])
  else if t.rightOf z = 0 then
    let x := t.leftOf z
    let t := t.rb_transplant z (t.leftOf z)
    if y_original_color = 0 then t.fix_deleteTraceF (t.nodes.size + 1) x
    else (t, [])
  else
    let y := t.minimum (t.rightOf z)
    let y_original_color := t.colorOf y
    let x := t.rightOf y
    let t :=
      if t.parentOf y = z then t.setParent x y
      else
        let t := t.rb_transplant y (t.rightOf y)
        let t := t.setRight y (t.rightOf z)
        t.setParent (t.rightOf y) y
    let t := t.rb_transplant z y
    let t := t.setLeft y (t.leftOf z)
    let t := t.setParent (t.leftOf y) y
    let t := t.setColor y (t.colorOf z)
    if y_original_color = 0 then t.fix_deleteTraceF (t.nodes.size + 1) x
    else (t, [])

/-- `delete_node` with the instrumented fixup. -/
def delete_nodeTrace (t : RedBlackTree) (k : Int) :
    RedBlackTree × List (Nat × Nat) :=
  let z := t.find k
  if z = 0 then (t, []) else t.delete_node_helperTrace z

end RedBlackTree


-- ===================================================================
-- Shadow trees: finite, explicitly indexed views of the pointer
-- structure, used to state and prove the universally quantified claims
-- about well-formed trees.
-- ===================================================================

/-- A shadow tree: the pointer structure reachable from an arena index,
recorded together with the index, key and color of every node. -/
inductive ITree where
  | leaf : ITree
  | node : Nat → Int → Nat → ITree → ITree → ITree
deriving Repr, DecidableEq

namespace ITree

/-- Arena index of the root (`0`, the sentinel, for `leaf`). -/
def idx : ITree → Nat
  | .leaf => 0
  | .node j _ _ _ _ => j

/-- All arena indices of the shadow tree. -/
def idxList : ITree → List Nat
  | .leaf => []
  | .node j _ _ l r => j :: (l.idxList ++ r.idxList)

/-- Number of real nodes on a longest root-to-leaf path. -/
def depth : ITree → Nat
  | .leaf => 0
  | .node _ _ _ l r => max l.depth r.depth + 1

/-- In-order key sequence. -/
def keys : ITree → List Int
  | .leaf => []
  | .node _ k _ l r => l.keys ++ k :: r.keys

/-- BST ordering within the open interval `(lo, hi)`. -/
def bst : ITree → Option Int → Option Int → Bool
  | .leaf, _, _ => true
  | .node _ k _ l r, lo, hi =>
    (match lo with | none => true | some a => decide (a < k))
      && (match hi with | none => true | some b => decide (k < b))
      && l.bst lo (some k) && r.bst (some k) hi

/-- The edge counts of all paths from the root to a sentinel leaf. -/
def leafDepths : ITree → List Nat
  | .leaf => [0]
  | .node _ _ _ l r => (l.leafDepths ++ r.leafDepths).map (· + 1)

/-- The maximum number of edges on a root-to-leaf path. -/
def maxEdges (s : ITree) : Nat := s.leafDepths.foldr max 0

end ITree

namespace RedBlackTree

/-- `t.reprB i s`: the arena structure reachable from index `i` is exactly
the shadow tree `s` — same indices, keys, colors and children throughout. -/
def reprB (t : RedBlackTree) : Nat → ITree → Bool
  | i, .leaf => i == 0
  | i, .node j k c l r =>
    i == j && decide (j ≠ 0) && decide (j < t.nodes.size)
      && t.keyOf j == k && t.colorOf j == c
      && t.reprB (t.leftOf j) l && t.reprB (t.rightOf j) r

end RedBlackTree


-- concrete operation sequences and shadow trees used by the claims

/-- The operation sequence exhibiting the delete-fixup slip: inserting
1, 2, 3, 4 builds a valid red-black tree; deleting the BLACK leaf 1 calls
`fix_delete` on the sentinel, whose loop `while x != self.nil and
x.color == 0` (line 243) is skipped entirely, leaving the black-height
deficiency unrepaired. -/
def c1ops : List Op := [.ins 1, .ins 2, .ins 3, .ins 4, .del 1]

/-- A 12-operation sequence after which the tree is entirely lost: the
state's root is the sentinel although keys 1 and 5 were inserted and
never deleted.  The loss is a cascade of the `fix_delete` loop-test slip:
an earlier skipped fixup leaves a black-deficient shape, and a later
`fix_delete` run rotates at a node whose rotation child is the sentinel,
which overwrites the root reference. -/
def c5ops : List Op :=
  [.ins 4, .ins 1, .ins 3, .ins 6, .del 6, .del 4, .ins 5, .ins 7,
   .ins 4, .del 7, .del 3, .del 4]

/-- Same sequence as `c5ops`, kept separately for claim C6. -/
def c6ops : List Op :=
  [.ins 4, .ins 1, .ins 3, .ins 6, .del 6, .del 4, .ins 5, .ins 7,
   .ins 4, .del 7, .del 3, .del 4]

/-- A 12-operation sequence after which the sentinel is RED: a
`fix_delete` run recolors the sentinel (as the "sibling" `w` in its
case 2) and then exits the loop at a RED `x`, so the final
`x.color = 0` recolors `x`, not the sentinel. -/
def c9ops : List Op :=
  [.ins 6, .ins 5, .ins 4, .ins 7, .del 4, .ins 4, .ins 1, .ins 3,
   .del 5, .del 1, .ins 1, .del 4]

/-- One delete beyond `c9ops`: with the sentinel red, `fix_delete` takes
its case 1 with the sentinel as the "red sibling" and rotates at a node
whose rotation child is the sentinel; the rotation's final
`x.right = y` (promoting the absent child) then executes with `x` the
sentinel, writing the sentinel's `right` field. -/
def c10ops : List Op :=
  [.ins 6, .ins 5, .ins 4, .ins 7, .del 4, .ins 4, .ins 1, .ins 3,
   .del 5, .del 1, .ins 1, .del 4, .del 3]

/-- The shadow of the tree built by `runOps [.ins 2, .ins 1, .ins 3]`
(arena indices 1, 2, 3). -/
def shadow3 : ITree :=
  .node 1 2 0 (.node 2 1 1 .leaf .leaf) (.node 3 3 1 .leaf .leaf)

/-- The shadow of the tree built by `runOps goldenOps`. -/
def goldenShadow : ITree :=
  .node 5 17 0
    (.node 1 8 1 (.node 3 5 0 .leaf .leaf) (.node 4 15 0 .leaf .leaf))
    (.node 6 25 1 (.node 2 18 0 .leaf .leaf)
      (.node 7 40 0 .leaf (.node 8 80 1 .leaf .leaf)))

/-- A 28-operation sequence after which the reachable structure is no
longer ordered as a BST (the fixup cascade even re-attaches an orphaned
subtree, duplicating keys), so the descent of a later `insert 9` misses
the node with key 9 that is present in the tree. -/
def c4ops : List Op :=
  [.ins 9, .ins 2, .ins 13, .ins 8, .ins 1, .ins 5, .ins 6, .ins 3,
   .del 2, .del 13, .del 8, .del 3, .ins 4, .ins 7, .del 6, .del 7,
   .ins 14, .ins 10, .del 5, .ins 11, .ins 12, .del 10, .ins 10,
   .del 11, .ins 9, .ins 4, .del 10, .del 9]

set_option maxRecDepth 100000
set_option maxHeartbeats 2000000


theorem ITree.depth_le_length_idxList (s : ITree) :
    s.depth ≤ s.idxList.length := by
  induction s with
  | leaf => simp [ITree.depth, ITree.idxList]
  | node j k c l r ihl ihr =>
    simp only [ITree.depth, ITree.idxList, List.length_cons, List.length_append]
    omega

theorem RedBlackTree.reprB_mem_idxList (t : RedBlackTree) :
    ∀ (s : ITree) (i : Nat), t.reprB i s = true →
      ∀ j ∈ s.idxList, j ≠ 0 ∧ j < t.nodes.size := by
  intro s
  induction s with
  | leaf => intro i _ j hj; simp [ITree.idxList] at hj
  | node a k c l r ihl ihr =>
    intro i hrep j hj
    simp only [RedBlackTree.reprB, Bool.and_eq_true, beq_iff_eq,
      decide_eq_true_eq] at hrep
    obtain ⟨⟨⟨⟨⟨⟨hi, ha0⟩, hasz⟩, hk⟩, hc⟩, hl⟩, hr⟩ := hrep
    simp only [ITree.idxList, List.mem_cons, List.mem_append] at hj
    rcases hj with hj | hj | hj
    · exact hj ▸ ⟨ha0, hasz⟩
    · exact ihl _ hl j hj
    · exact ihr _ hr j hj

theorem RedBlackTree.depth_lt_fuel (t : RedBlackTree) (s : ITree) (i : Nat)
    (hrep : t.reprB i s = true) (hnd : s.idxList.Nodup) :
    s.depth < t.nodes.size + 1 := by
  have hmem := t.reprB_mem_idxList s i hrep
  have hsub : s.idxList.toFinset ⊆ Finset.Ico 1 t.nodes.size := by
    intro j hj
    rw [List.mem_toFinset] at hj
    have := hmem j hj
    rw [Finset.mem_Ico]
    omega
  have hcard := Finset.card_le_card hsub
  rw [List.toFinset_card_of_nodup hnd, Nat.card_Ico] at hcard
  have := ITree.depth_le_length_idxList s
  omega


theorem RedBlackTree.heightF_eq (t : RedBlackTree) :
    ∀ (s : ITree) (fuel i : Nat), t.reprB i s = true → s.depth < fuel →
      t.heightF fuel i = s.depth := by
  intro s
  induction s with
  | leaf =>
    intro fuel i hrep hlt
    obtain ⟨f, rfl⟩ : ∃ f, fuel = f + 1 := ⟨fuel - 1, by omega⟩
    simp only [RedBlackTree.reprB, beq_iff_eq] at hrep
    subst hrep
    simp [RedBlackTree.heightF, ITree.depth]
  | node j k c l r ihl ihr =>
    intro fuel i hrep hlt
    obtain ⟨f, rfl⟩ : ∃ f, fuel = f + 1 := ⟨fuel - 1, by omega⟩
    simp only [RedBlackTree.reprB, Bool.and_eq_true, beq_iff_eq,
      decide_eq_true_eq] at hrep
    obtain ⟨⟨⟨⟨⟨⟨rfl, ha0⟩, hasz⟩, hk⟩, hc⟩, hl⟩, hr⟩ := hrep
    simp only [ITree.depth] at hlt ⊢
    have hfl : l.depth < f := by omega
    have hfr : r.depth < f := by omega
    simp only [RedBlackTree.heightF, if_neg ha0, ihl f _ hl hfl, ihr f _ hr hfr]

theorem List.foldr_max_append_zero (a b : List Nat) :
    (a ++ b).foldr max 0 = max (a.foldr max 0) (b.foldr max 0) := by
  induction a with
  | nil => simp
  | cons x xs ih => simp [ih, Nat.max_assoc]

theorem ITree.leafDepths_ne_nil (s : ITree) : s.leafDepths ≠ [] := by
  cases s with
  | leaf => simp [ITree.leafDepths]
  | node j k c l r =>
    simp only [ITree.leafDepths, ne_eq, List.map_eq_nil_iff, List.append_eq_nil]
    intro h
    exact l.leafDepths_ne_nil h.1

theorem List.foldr_max_map_succ (a : List Nat) (h : a ≠ []) :
    (a.map (· + 1)).foldr max 0 = a.foldr max 0 + 1 := by
  induction a with
  | nil => simp at h
  | cons x xs ih =>
    cases xs with
    | nil => simp
    | cons y ys =>
      simp only [List.map_cons, List.foldr_cons] at ih ⊢
      rw [ih (by simp)]
      omega

theorem ITree.maxEdges_eq_depth (s : ITree) : s.maxEdges = s.depth := by
  induction s with
  | leaf => simp [ITree.maxEdges, ITree.leafDepths, ITree.depth]
  | node j k c l r ihl ihr =>
    simp only [ITree.maxEdges, ITree.leafDepths, ITree.depth] at ihl ihr ⊢
    rw [List.foldr_max_map_succ _ (by
        simp only [ne_eq, List.append_eq_nil]
        intro h
        exact l.leafDepths_ne_nil h.1),
      List.foldr_max_append_zero, ihl, ihr]

theorem ITree.bst_keys_gt :
    ∀ (s : ITree) (a : Int) (hi : Option Int), s.bst (some a) hi = true →
      ∀ x ∈ s.keys, a < x := by
  intro s
  induction s with
  | leaf => intro a hi _ x hx; simp [ITree.keys] at hx
  | node j k c l r ihl ihr =>
    intro a hi hbst x hx
    simp only [ITree.bst, Bool.and_eq_true, decide_eq_true_eq] at hbst
    obtain ⟨⟨⟨hak, _⟩, hl⟩, hr⟩ := hbst
    simp only [ITree.keys, List.mem_append, List.mem_cons] at hx
    rcases hx with hx | rfl | hx
    · exact ihl a (some k) hl x hx
    · exact hak
    · exact lt_trans hak (ihr k hi hr x hx)

theorem ITree.bst_keys_lt :
    ∀ (s : ITree) (b : Int) (lo : Option Int), s.bst lo (some b) = true →
      ∀ x ∈ s.keys, x < b := by
  intro s
  induction s with
  | leaf => intro b lo _ x hx; simp [ITree.keys] at hx
  | node j k c l r ihl ihr =>
    intro b lo hbst x hx
    simp only [ITree.bst, Bool.and_eq_true, decide_eq_true_eq] at hbst
    obtain ⟨⟨⟨_, hkb⟩, hl⟩, hr⟩ := hbst
    simp only [ITree.keys, List.mem_append, List.mem_cons] at hx
    rcases hx with hx | rfl | hx
    · exact lt_trans (ihl k lo hl x hx) hkb
    · exact hkb
    · exact ihr b (some k) hr x hx

theorem RedBlackTree.find_helperF_eq_zero (t : RedBlackTree) (k : Int) :
    ∀ (s : ITree) (fuel i : Nat), t.reprB i s = true → s.depth < fuel →
      k ∉ s.keys → t.find_helperF k fuel i = 0 := by
  intro s
  induction s with
  | leaf =>
    intro fuel i hrep hlt _
    obtain ⟨f, rfl⟩ : ∃ f, fuel = f + 1 := ⟨fuel - 1, by omega⟩
    simp only [RedBlackTree.reprB, beq_iff_eq] at hrep
    subst hrep
    simp [RedBlackTree.find_helperF]
  | node j kj c l r ihl ihr =>
    intro fuel i hrep hlt hk
    obtain ⟨f, rfl⟩ : ∃ f, fuel = f + 1 := ⟨fuel - 1, by omega⟩
    simp only [RedBlackTree.reprB, Bool.and_eq_true, beq_iff_eq,
      decide_eq_true_eq] at hrep
    obtain ⟨⟨⟨⟨⟨⟨rfl, ha0⟩, hasz⟩, hkey⟩, hc⟩, hl⟩, hr⟩ := hrep
    simp only [ITree.keys, List.mem_append, List.mem_cons, not_or] at hk
    obtain ⟨hkl, hne, hkr⟩ := hk
    simp only [ITree.depth] at hlt
    rw [RedBlackTree.find_helperF]
    rw [if_neg (by
      rw [hkey]
      push_neg
      exact ⟨ha0, fun h => hne h.symm⟩)]
    by_cases hcmp : k < t.keyOf i
    · rw [if_pos hcmp]
      exact ihl f _ hl (by omega) hkl
    · rw [if_neg hcmp]
      exact ihr f _ hr (by omega) hkr

theorem RedBlackTree.insertLoopF_dup (t : RedBlackTree) (k : Int) :
    ∀ (s : ITree) (lo hi : Option Int) (fuel y i : Nat),
      t.reprB i s = true → s.bst lo hi = true → k ∈ s.keys →
      s.depth < fuel → t.insertLoopF k fuel y i = .dup := by
  intro s
  induction s with
  | leaf => intro lo hi fuel y i _ _ hk _; simp [ITree.keys] at hk
  | node j kj c l r ihl ihr =>
    intro lo hi fuel y i hrep hbst hk hlt
    obtain ⟨f, rfl⟩ : ∃ f, fuel = f + 1 := ⟨fuel - 1, by omega⟩
    simp only [RedBlackTree.reprB, Bool.and_eq_true, beq_iff_eq,
      decide_eq_true_eq] at hrep
    obtain ⟨⟨⟨⟨⟨⟨rfl, ha0⟩, hasz⟩, hkey⟩, hc⟩, hl⟩, hr⟩ := hrep
    simp only [ITree.bst, Bool.and_eq_true] at hbst
    obtain ⟨⟨_, hbl⟩, hbr⟩ := hbst
    simp only [ITree.keys, List.mem_append, List.mem_cons] at hk
    simp only [ITree.depth] at hlt
    rw [RedBlackTree.insertLoopF, if_pos ha0]
    by_cases h1 : k < t.keyOf i
    · rw [if_pos h1]
      have hkmem : k ∈ l.keys := by
        rcases hk with h | h | h
        · exact h
        · exact absurd (h ▸ h1) (by simp [hkey])
        · exact absurd (hkey ▸ h1)
            (not_lt.mpr (le_of_lt (r.bst_keys_gt kj hi hbr k h)))
      exact ihl lo (some kj) f _ _ hl hbl hkmem (by omega)
    · rw [if_neg h1]
      by_cases h2 : k > t.keyOf i
      · rw [if_pos h2]
        have hkmem : k ∈ r.keys := by
          rcases hk with h | h | h
          · exact absurd (hkey ▸ h2)
              (not_lt.mpr (le_of_lt (l.bst_keys_lt kj lo hbl k h)))
          · exact absurd (h ▸ h2) (by simp [hkey])
          · exact h
        exact ihr (some kj) hi f _ _ hr hbr hkmem (by omega)
      · rw [if_neg h2]

-- ===================================================================
-- Claims
-- ===================================================================

/-- Claim C4 as amended: on every tree state that is a well-formed BST
(shadow-tree representation, distinct indices, BST order — as holds
before the delete-fixup corruption can occur), `insert k` with `k`
already present and `delete_node k` with `k` absent are no-ops that
return the prior state bit-for-bit unchanged and signal the
duplicate-key / key-not-found condition (the printed message, modelled
as the Bool `true`).  The unamended claim, quantified over every
reachable state, is refuted by `c4_duplicate_insert_not_noop`. -/
theorem c4_noop_and_signal (t : RedBlackTree) (s : ITree) (k : Int)
    (hrep : t.reprB t.root s = true) (hnd : s.idxList.Nodup)
    (hbst : s.bst none none = true) :
    (k ∈ s.keys → t.insert k = (t, true))
    ∧ (k ∉ s.keys → t.delete_node k = (t, true)) := by
  constructor
  · intro hk
    have hdup := t.insertLoopF_dup k s none none (t.nodes.size + 1) 0 t.root
      hrep hbst hk (t.depth_lt_fuel s t.root hrep hnd)
    unfold RedBlackTree.insert
    rw [hdup]
  · intro hk
    have hfind : t.find k = 0 := by
      unfold RedBlackTree.find
      by_cases h : t.root = 0
      · rw [if_pos h]
      · rw [if_neg h]
        exact t.find_helperF_eq_zero k s _ _ hrep
          (t.depth_lt_fuel s t.root hrep hnd) hk
    unfold RedBlackTree.delete_node
    rw [hfind]
    rfl

/-- Witness for C4 at a concrete state: inserting the present key 2 and
deleting the absent key 5 both leave `runOps [.ins 2, .ins 1, .ins 3]`
unchanged and signal. -/
theorem c4_noop_and_signal_witness :
    ((runOps [.ins 2, .ins 1, .ins 3]).insert 2 =
      (runOps [.ins 2, .ins 1, .ins 3], true))
    ∧ ((runOps [.ins 2, .ins 1, .ins 3]).delete_node 5 =
      (runOps [.ins 2, .ins 1, .ins 3], true)) :=
  ⟨(c4_noop_and_signal (runOps [.ins 2, .ins 1, .ins 3]) shadow3 2
      (by decide) (by decide) (by decide)).1 (by decide),
   (c4_noop_and_signal (runOps [.ins 2, .ins 1, .ins 3]) shadow3 5
      (by decide) (by decide) (by decide)).2 (by decide)⟩

/-- Counterexample to claim C4 as stated: after `c4ops` a node with
key 9 is present in the tree (it occurs in the in-order traversal), yet
`insert 9` does not signal the duplicate and changes the tree — the
fixup cascade broke the BST order, so the insert descent misses the
existing node and links a second node with key 9. -/
theorem c4_duplicate_insert_not_noop :
    (runOps c4ops).inorder.contains 9 = true
    ∧ ((runOps c4ops).insert 9).2 = false
    ∧ ((runOps c4ops).insert 9).1 ≠ runOps c4ops := by decide

/-- Claim C8: for every node of a well-formed tree (an arena structure
represented by a shadow tree with distinct indices), `height` returns the
maximum number of edges on a path from that node to a sentinel leaf, and
the height of the sentinel is 0. -/
theorem c8_height_is_max_edge_count (t : RedBlackTree) (s : ITree) (i : Nat)
    (hrep : t.reprB i s = true) (hnd : s.idxList.Nodup) :
    t.height i = s.maxEdges ∧ t.height 0 = 0 := by
  constructor
  · rw [ITree.maxEdges_eq_depth]
    exact t.heightF_eq s (t.nodes.size + 1) i hrep (t.depth_lt_fuel s i hrep hnd)
  · simp [RedBlackTree.height, RedBlackTree.heightF]

/-- Witness for C8 at a concrete state: on the golden tree the height of
the root is the maximum root-to-leaf edge count of its shadow (namely 4),
and the sentinel has height 0. -/
theorem c8_height_is_max_edge_count_witness :
    ((runOps goldenOps).height (runOps goldenOps).root = goldenShadow.maxEdges
      ∧ (runOps goldenOps).height 0 = 0)
    ∧ goldenShadow.maxEdges = 4 :=
  ⟨c8_height_is_max_edge_count (runOps goldenOps) goldenShadow
      (runOps goldenOps).root (by decide) (by decide),
   by decide⟩

/-- Claim C1 (code bug): the five red-black invariants do NOT hold after
every insert/delete sequence.  After `[ins 1, ins 2, ins 3, ins 4]` the
checker accepts the tree, but after the additional `del 1` the
black-height property (invariant 4) is violated: the root's left path
has fewer BLACK nodes than its right path. -/
theorem c1_invariants_broken_by_delete :
    (runOps (c1ops.take 4)).checkRB = true
    ∧ (runOps c1ops).checkRB = false := by decide

/-- Claim C2 (code bug): in `fix_delete` the loop body can execute while
`x` IS the tree root, because the loop test compares `x` against the
sentinel (`x != self.nil`), not against the root.  On the state reached
by `c1ops`, deleting key 2 runs the instrumented fixup whose trace
records a loop iteration with `x` equal to the current root (the `any`
below finds a pair whose loop variable equals the root recorded at that
moment); the instrumented fixup computes the same final state as
`delete_node` itself. -/
theorem c2_fixup_body_runs_at_root :
    ((((runOps c1ops).delete_nodeTrace 2).2.any fun p => p.1 == p.2) = true)
    ∧ ((runOps c1ops).delete_nodeTrace 2).1 = ((runOps c1ops).delete_node 2).1 := by
  decide

/-- Claim C3 (confirmed): the golden scenario.  Inserting
8, 18, 5, 15, 17, 25, 40, 80 yields exactly the documented shape and
coloring (snapshot records key, color, left, right; color 0 = BLACK,
1 = RED); deleting 25 yields the documented second shape with the left
subtree unchanged; deleting the absent 100 signals and leaves the whole
state bit-for-bit unchanged. -/
theorem c3_golden_scenario :
    snapshot (runOps goldenOps) =
      .node 17 0
        (.node 8 1 (.node 5 0 .leaf .leaf) (.node 15 0 .leaf .leaf))
        (.node 25 1 (.node 18 0 .leaf .leaf)
          (.node 40 0 .leaf (.node 80 1 .leaf .leaf)))
    ∧ snapshot (runOps (goldenOps ++ [.del 25])) =
      .node 17 0
        (.node 8 1 (.node 5 0 .leaf .leaf) (.node 15 0 .leaf .leaf))
        (.node 40 1 (.node 18 0 .leaf .leaf) (.node 80 0 .leaf .leaf))
    ∧ (runOps (goldenOps ++ [.del 25])).delete_node 100 =
        (runOps (goldenOps ++ [.del 25]), true) := by decide

/-- Claim C5 (code bug): `find` does not return a real node for every key
that was inserted and not subsequently deleted.  After `c5ops`, key 1 was
inserted (op 2) and never deleted, yet `find 1` returns the sentinel —
indeed the root itself is the sentinel. -/
theorem c5_find_misses_present_key :
    (runOps c5ops).find 1 = 0
    ∧ ((1 : Int) ∈ refRun c5ops)
    ∧ (runOps c5ops).root = 0 := by decide

/-- Claim C6 (code bug): the in-order traversal after an insert/delete
sequence is NOT always the sorted sequence of present keys.  After
`c6ops` the present keys are [1, 5] but the traversal is empty (the tree
was lost to the fixup cascade). -/
theorem c6_inorder_loses_keys :
    (runOps c6ops).inorder = []
    ∧ refRun c6ops = [1, 5]
    ∧ (runOps c6ops).inorder ≠ refRun c6ops := by decide

/-- Claim C9 (code bug): the sentinel is NOT black after every public
operation: after `c9ops` (a sequence of inserts and deletes from a fresh
tree) the sentinel's color is 1 (RED). -/
theorem c9_sentinel_left_red :
    (runOps c9ops).colorOf 0 = 1 := by decide

/-- Claim C10 (code bug): operations CAN write the sentinel's child
fields: after `c10ops` the sentinel's `right` field holds node index 8
instead of referencing the sentinel itself. -/
theorem c10_sentinel_right_written :
    (runOps c10ops).rightOf 0 = 8 ∧ (runOps c10ops).rightOf 0 ≠ 0 := by decide
